import Mathlib

/-!
# Multilink relay: NUS client side (`app_nus_client.c`)

A shallow embedding of the central-role half of the relay.  The file-level
statics of `app_nus_client.c` become the fields of `RelayState`; every array
access is checked against the declared array size and yields
`Fault.out_of_bounds` when it misses; `APP_ERROR_CHECK` on a non-zero code
yields `Fault.app_error` (the SDK error handler does not return to the caller).

`NRF_SDH_BLE_CENTRAL_LINK_COUNT` comes from `sdk_config.h`, which is not part
of the sources: it is the parameter `N` of every definition below.  Return
codes of SDK calls and the value of `ble_conn_state_central_conn_count()` are
inputs supplied by the environment (`SdkResults`).
-/

namespace AppNusClient

/-! ## Constants of the SDK headers -/

def NRF_SUCCESS : Nat := 0
def NRF_ERROR_INVALID_STATE : Nat := 8
def NRF_ERROR_RESOURCES : Nat := 19
def BLE_GAP_ROLE_PERIPH : Nat := 1
def BLE_GAP_ROLE_CENTRAL : Nat := 2
def BLE_CONN_HANDLE_INVALID : Nat := 0xFFFF
def BLE_GATT_HANDLE_INVALID : Nat := 0

/-! ## Data model -/

/-- Why a handler did not run to its end. -/
inductive Fault where
  | out_of_bounds
  | app_error (code : Nat)
  deriving DecidableEq, Repr

/-- Characteristic handles of the UART service on a peer (`ble_nus_c_handles_t`). -/
structure ble_nus_c_handles_t where
  nus_tx_handle : Nat
  nus_tx_cccd_handle : Nat
  nus_rx_handle : Nat
  deriving DecidableEq, Repr

/-- One client instance of the pool `m_ble_nus_c` (`ble_nus_c_t`): the link it
is bound to, the handles it holds, and whether enabling of TX notifications was
requested on it. -/
structure ble_nus_c_t where
  conn_handle : Nat
  handles : ble_nus_c_handles_t
  tx_notif_enabled : Bool
  deriving DecidableEq, Repr

/-- One invocation of the upward callback `m_on_data_received(p_data, data_len)`. -/
structure Delivery where
  callback : Nat
  p_data : List Nat
  data_len : Nat
  deriving DecidableEq, Repr

/-- The statics of `app_nus_client.c` together with the externally visible
signals the file drives (scan session, BSP indication, the two board LEDs),
the discovery passes it has started and the upward deliveries it has made. -/
structure RelayState where
  ntt_client_conn_handle : List Nat
  m_ble_nus_c : List ble_nus_c_t
  m_on_data_received : Nat
  scanning : Bool
  indicate_scanning : Bool
  led_conn_to_periph_device : Bool
  led_conn_to_periph_full : Bool
  db_discovery_ready : Bool
  scan_filter_enabled : Bool
  discovery_started : List Nat
  delivered : List Delivery
  deriving DecidableEq, Repr

/-- Values the SDK hands back during one handler invocation: the return code
of each call the handler may make, and the current central connection count. -/
structure SdkResults where
  nrf_ble_scan_start : Nat
  bsp_indication_set : Nat
  ble_nus_c_handles_assign : Nat
  ble_nus_c_tx_notif_enable : Nat
  ble_db_discovery_start : Nat
  ble_conn_state_central_conn_count : Nat
  deriving DecidableEq, Repr

/-- Every SDK call of the invocation reports `NRF_SUCCESS`. -/
def SdkResults.all_success (r : SdkResults) : Prop :=
  r.nrf_ble_scan_start = NRF_SUCCESS ∧ r.bsp_indication_set = NRF_SUCCESS ∧
  r.ble_nus_c_handles_assign = NRF_SUCCESS ∧ r.ble_nus_c_tx_notif_enable = NRF_SUCCESS ∧
  r.ble_db_discovery_start = NRF_SUCCESS

instance (r : SdkResults) : Decidable r.all_success := by
  unfold SdkResults.all_success; infer_instance

/-- An environment in which every call succeeds and `n` central links are up. -/
def sdk_ok (n : Nat) : SdkResults :=
  { nrf_ble_scan_start := NRF_SUCCESS, bsp_indication_set := NRF_SUCCESS,
    ble_nus_c_handles_assign := NRF_SUCCESS, ble_nus_c_tx_notif_enable := NRF_SUCCESS,
    ble_db_discovery_start := NRF_SUCCESS, ble_conn_state_central_conn_count := n }

/-- Zero-initialised instance, as the C runtime leaves a static. -/
def ble_nus_c_zero : ble_nus_c_t :=
  { conn_handle := 0, handles := ⟨0, 0, 0⟩, tx_notif_enabled := false }

/-- The statics before any function of the file ran: the tracking table has
`NRF_SDH_BLE_CENTRAL_LINK_COUNT + 2` entries, the pool
`NRF_SDH_BLE_CENTRAL_LINK_COUNT`, all zero. -/
def init_state (N : Nat) : RelayState :=
  { ntt_client_conn_handle := List.replicate (N + 2) 0
    m_ble_nus_c := List.replicate N ble_nus_c_zero
    m_on_data_received := 0
    scanning := false
    indicate_scanning := false
    led_conn_to_periph_device := false
    led_conn_to_periph_full := false
    db_discovery_ready := false
    scan_filter_enabled := false
    discovery_started := []
    delivered := [] }

/-! ## Error escalation and array access -/

instance instDecidableEqOutcome {ε α : Type} [DecidableEq ε] [DecidableEq α] :
    DecidableEq (Except ε α)
  | .ok a, .ok b => if h : a = b then isTrue (by rw [h]) else isFalse (fun e => h (by cases e; rfl))
  | .error a, .error b =>
      if h : a = b then isTrue (by rw [h]) else isFalse (fun e => h (by cases e; rfl))
  | .ok _, .error _ => isFalse (fun e => by cases e)
  | .error _, .ok _ => isFalse (fun e => by cases e)

/-- `APP_ERROR_CHECK(code)`: continue on `NRF_SUCCESS`, otherwise escalate. -/
def APP_ERROR_CHECK (code : Nat) : Except Fault Unit :=
  if code = NRF_SUCCESS then .ok () else .error (.app_error code)

/-- Read `ntt_client_conn_handle[i]`. -/
def ntt_read (s : RelayState) (i : Nat) : Except Fault Nat :=
  match s.ntt_client_conn_handle[i]? with
  | some v => .ok v
  | none => .error .out_of_bounds

/-- Write `ntt_client_conn_handle[i] = v`. -/
def ntt_write (s : RelayState) (i v : Nat) : Except Fault RelayState :=
  if i < s.ntt_client_conn_handle.length then
    .ok { s with ntt_client_conn_handle := s.ntt_client_conn_handle.set i v }
  else .error .out_of_bounds

/-- Dereference `&m_ble_nus_c[i]`. -/
def pool_read (s : RelayState) (i : Nat) : Except Fault ble_nus_c_t :=
  match s.m_ble_nus_c[i]? with
  | some c => .ok c
  | none => .error .out_of_bounds

/-- Store through `&m_ble_nus_c[i]`. -/
def pool_write (s : RelayState) (i : Nat) (c : ble_nus_c_t) : Except Fault RelayState :=
  if i < s.m_ble_nus_c.length then
    .ok { s with m_ble_nus_c := s.m_ble_nus_c.set i c }
  else .error .out_of_bounds

/-! ## SDK calls, by their effect on the state -/

/-- `ble_nus_c_handles_assign(&m_ble_nus_c[i], conn_handle, p_peer_handles)`:
binds the instance to the link and, when handles are passed, stores them. -/
def ble_nus_c_handles_assign (s : RelayState) (i conn_handle : Nat)
    (p_peer_handles : Option ble_nus_c_handles_t) : Except Fault RelayState := do
  let c ← pool_read s i
  let c1 := { c with conn_handle := conn_handle }
  let c2 := match p_peer_handles with
    | some h => { c1 with handles := h }
    | none => c1
  pool_write s i c2

/-- `ble_nus_c_tx_notif_enable(&m_ble_nus_c[i])`. -/
def ble_nus_c_tx_notif_enable (s : RelayState) (i : Nat) : Except Fault RelayState := do
  let c ← pool_read s i
  pool_write s i { c with tx_notif_enabled := true }

/-- `ble_db_discovery_start(&m_db_disc, conn_handle)`. -/
def ble_db_discovery_start (s : RelayState) (conn_handle : Nat) : RelayState :=
  { s with discovery_started := s.discovery_started ++ [conn_handle] }

/-! ## The functions of `app_nus_client.c` -/

/-- `scan_start`. -/
def scan_start (r : SdkResults) (s : RelayState) : Except Fault RelayState := do
  let s1 := { s with scanning := true }
  APP_ERROR_CHECK r.nrf_ble_scan_start
  let s2 := { s1 with indicate_scanning := true }
  APP_ERROR_CHECK r.bsp_indication_set
  pure s2

/-- Scanning-module events seen by `scan_evt_handler`. -/
inductive scan_evt_t where
  | NRF_BLE_SCAN_EVT_CONNECTING_ERROR (err_code : Nat)
  | NRF_BLE_SCAN_EVT_CONNECTED
  | NRF_BLE_SCAN_EVT_SCAN_TIMEOUT
  | other
  deriving DecidableEq, Repr

/-- `scan_evt_handler`. -/
def scan_evt_handler (r : SdkResults) (e : scan_evt_t) (s : RelayState) :
    Except Fault RelayState :=
  match e with
  | .NRF_BLE_SCAN_EVT_CONNECTING_ERROR err_code => do
      APP_ERROR_CHECK err_code
      pure s
  | .NRF_BLE_SCAN_EVT_CONNECTED => pure s
  | .NRF_BLE_SCAN_EVT_SCAN_TIMEOUT => scan_start r s
  | .other => pure s

/-- Events the NUS client library delivers to `ble_nus_c_evt_handler`. -/
inductive ble_nus_c_evt_t where
  | BLE_NUS_C_EVT_DISCOVERY_COMPLETE (conn_handle : Nat) (handles : ble_nus_c_handles_t)
  | BLE_NUS_C_EVT_NUS_TX_EVT (p_data : List Nat) (data_len : Nat)
  | BLE_NUS_C_EVT_DISCONNECTED
  deriving DecidableEq, Repr

/-- `ble_nus_c_evt_handler(&m_ble_nus_c[i], p_ble_nus_evt)`. -/
def ble_nus_c_evt_handler (r : SdkResults) (i : Nat) (e : ble_nus_c_evt_t)
    (s : RelayState) : Except Fault RelayState :=
  match e with
  | .BLE_NUS_C_EVT_DISCOVERY_COMPLETE conn_handle handles => do
      let s1 ← ble_nus_c_handles_assign s i conn_handle (some handles)
      APP_ERROR_CHECK r.ble_nus_c_handles_assign
      let s2 ← ble_nus_c_tx_notif_enable s1 i
      APP_ERROR_CHECK r.ble_nus_c_tx_notif_enable
      pure s2
  | .BLE_NUS_C_EVT_NUS_TX_EVT p_data data_len =>
      if s.m_on_data_received ≠ 0 then
        pure { s with delivered := s.delivered ++ [⟨s.m_on_data_received, p_data, data_len⟩] }
      else pure s
  | .BLE_NUS_C_EVT_DISCONNECTED => scan_start r s

/-- Database-discovery event: the link it is for and, when the pass completed
and found the UART service, the handles found. -/
structure ble_db_discovery_evt_t where
  conn_handle : Nat
  nus_found : Option ble_nus_c_handles_t
  deriving DecidableEq, Repr

/-- `db_disc_handler`: hands the event to the pool instance indexed by the raw
connection handle; the library then reports `BLE_NUS_C_EVT_DISCOVERY_COMPLETE`
on that instance when the service was found. -/
def db_disc_handler (r : SdkResults) (e : ble_db_discovery_evt_t) (s : RelayState) :
    Except Fault RelayState :=
  match e.nus_found with
  | some handles =>
      ble_nus_c_evt_handler r e.conn_handle
        (.BLE_NUS_C_EVT_DISCOVERY_COMPLETE e.conn_handle handles) s
  | none => pure s

/-- Link-layer events seen by `app_nus_client_ble_evt_handler`. -/
inductive ble_evt_t where
  | BLE_GAP_EVT_CONNECTED (conn_handle : Nat) (role : Nat)
  | BLE_GAP_EVT_DISCONNECTED (conn_handle : Nat) (reason : Nat)
  | other (evt_id : Nat)
  deriving DecidableEq, Repr

/-- `app_nus_client_ble_evt_handler`. -/
def app_nus_client_ble_evt_handler (N : Nat) (r : SdkResults) (e : ble_evt_t)
    (s : RelayState) : Except Fault RelayState :=
  match e with
  | .BLE_GAP_EVT_CONNECTED conn_handle role =>
      if role = BLE_GAP_ROLE_CENTRAL then do
        let s1 ← ntt_write s conn_handle 1
        let s2 ← ble_nus_c_handles_assign s1 conn_handle conn_handle none
        APP_ERROR_CHECK r.ble_nus_c_handles_assign
        let s3 := ble_db_discovery_start s2 conn_handle
        APP_ERROR_CHECK r.ble_db_discovery_start
        if r.ble_conn_state_central_conn_count < N then
          scan_start r { s3 with led_conn_to_periph_device := true,
                                 led_conn_to_periph_full := false }
        else
          pure { s3 with led_conn_to_periph_full := true }
      else pure s
  | .BLE_GAP_EVT_DISCONNECTED conn_handle _reason =>
      ntt_read s conn_handle >>= fun v =>
      (if v = 1 then
          ntt_write s conn_handle 0 >>= fun s0 =>
          if r.ble_conn_state_central_conn_count = 0 then
            pure { s0 with led_conn_to_periph_device := false }
          else pure s0
        else pure s) >>= fun s1 =>
      scan_start r s1
  | .other _ => pure s

/-! ## Initialisation -/

/-- Return codes of the SDK calls made by the initialisation functions. -/
structure InitResults where
  ble_db_discovery_init : Nat
  ble_nus_c_init : Nat → Nat
  nrf_ble_scan_init : Nat
  nrf_ble_scan_filter_set : Nat
  nrf_ble_scan_filters_enable : Nat

/-- An initialisation in which every call succeeds. -/
def init_ok : InitResults :=
  { ble_db_discovery_init := NRF_SUCCESS, ble_nus_c_init := fun _ => NRF_SUCCESS,
    nrf_ble_scan_init := NRF_SUCCESS, nrf_ble_scan_filter_set := NRF_SUCCESS,
    nrf_ble_scan_filters_enable := NRF_SUCCESS }

/-- `db_discovery_init`. -/
def db_discovery_init (ri : InitResults) (s : RelayState) : Except Fault RelayState := do
  APP_ERROR_CHECK ri.ble_db_discovery_init
  pure { s with db_discovery_ready := true }

/-- `ble_nus_c_init(&m_ble_nus_c[c], &init)`: the instance starts unbound with
invalid TX and RX handles. -/
def ble_nus_c_init (s : RelayState) (c : Nat) : Except Fault RelayState := do
  let inst ← pool_read s c
  pool_write s c { inst with
    conn_handle := BLE_CONN_HANDLE_INVALID
    handles := { inst.handles with nus_tx_handle := BLE_GATT_HANDLE_INVALID,
                                   nus_rx_handle := BLE_GATT_HANDLE_INVALID } }

/-- The loop of `nus_c_init`, entered at index `c` with `todo` rounds left. -/
def nus_c_init_loop (ri : InitResults) : (todo : Nat) → (c : Nat) → RelayState →
    Except Fault RelayState
  | 0, _, s => pure s
  | todo + 1, c, s => do
      let s1 ← ble_nus_c_init s c
      APP_ERROR_CHECK (ri.ble_nus_c_init c)
      nus_c_init_loop ri todo (c + 1) s1

/-- `nus_c_init`. -/
def nus_c_init (N : Nat) (ri : InitResults) (s : RelayState) : Except Fault RelayState :=
  nus_c_init_loop ri N 0 s

/-- `scan_init`. -/
def scan_init (ri : InitResults) (s : RelayState) : Except Fault RelayState := do
  APP_ERROR_CHECK ri.nrf_ble_scan_init
  APP_ERROR_CHECK ri.nrf_ble_scan_filter_set
  APP_ERROR_CHECK ri.nrf_ble_scan_filters_enable
  pure { s with scan_filter_enabled := true }

/-- `app_nus_client_init`. -/
def app_nus_client_init (N : Nat) (ri : InitResults) (r : SdkResults)
    (on_data_received : Nat) (s : RelayState) : Except Fault RelayState := do
  let s1 := { s with m_on_data_received := on_data_received }
  let s2 ← db_discovery_init ri s1
  let s3 ← nus_c_init N ri s2
  let s4 ← scan_init ri s3
  scan_start r s4

/-! ## Event dispatch -/

/-- One event entering the file, from the SoftDevice or from an SDK module. -/
inductive RelayEvent where
  | ble (e : ble_evt_t)
  | db_disc (e : ble_db_discovery_evt_t)
  | nus_tx (i : Nat) (p_data : List Nat) (data_len : Nat)
  | nus_disconnected (i : Nat)
  | scan (e : scan_evt_t)
  deriving DecidableEq, Repr

/-- Deliver one event to the handler registered for it. -/
def step (N : Nat) (r : SdkResults) (ev : RelayEvent) (s : RelayState) :
    Except Fault RelayState :=
  match ev with
  | .ble e => app_nus_client_ble_evt_handler N r e s
  | .db_disc e => db_disc_handler r e s
  | .nus_tx i p_data data_len =>
      ble_nus_c_evt_handler r i (.BLE_NUS_C_EVT_NUS_TX_EVT p_data data_len) s
  | .nus_disconnected i => ble_nus_c_evt_handler r i .BLE_NUS_C_EVT_DISCONNECTED s
  | .scan e => scan_evt_handler r e s

/-- Deliver a sequence of events, each with the SDK results of its invocation;
stops at the first fault. -/
def run (N : Nat) : List (RelayEvent × SdkResults) → RelayState → Except Fault RelayState
  | [], s => pure s
  | (ev, r) :: rest, s => do
      let s1 ← step N r ev s
      run N rest s1

/-- Number of link identifiers currently tracked. -/
def tracked_count (s : RelayState) : Nat :=
  s.ntt_client_conn_handle.count 1

/-- Link identifier `h` is tracked. -/
def tracked (s : RelayState) (h : Nat) : Prop :=
  s.ntt_client_conn_handle[h]? = some 1

instance (s : RelayState) (h : Nat) : Decidable (tracked s h) := by
  unfold tracked; infer_instance

/-! ## Outbound broadcast -/

/-- One call `ble_nus_c_string_send(&m_ble_nus_c[c], data_array, index)`. -/
structure SendAttempt where
  c : Nat
  data_array : List Nat
  index : Nat
  deriving DecidableEq, Repr

/-- How a run of the broadcast ended: it returned to its caller, it escalated a
code through `APP_ERROR_CHECK`, or it was still retrying a busy instance when
the observation ended. -/
inductive SendStatus where
  | returned
  | escalated (code : Nat)
  | retrying
  deriving DecidableEq, Repr

/-- The send attempts made, in order, and how the run ended. -/
structure SendTrace where
  status : SendStatus
  attempts : List SendAttempt
  deriving DecidableEq, Repr

/-- The `do ... while (ret_val == NRF_ERROR_RESOURCES)` loop on instance `c`,
entered for the attempt numbered `j`; `string_send c j` is the code the SDK
returns for that attempt.  `fuel` bounds the number of attempts observed. -/
def send_do_while (string_send : Nat → Nat → Nat) (c : Nat) (data_array : List Nat)
    (index : Nat) : (fuel : Nat) → (j : Nat) → SendTrace
  | 0, _ => ⟨.retrying, []⟩
  | fuel + 1, j =>
      let ret_val := string_send c j
      let a : SendAttempt := ⟨c, data_array, index⟩
      let checked : Except Fault Unit :=
        if ret_val ≠ NRF_ERROR_INVALID_STATE ∧ ret_val ≠ NRF_ERROR_RESOURCES then
          APP_ERROR_CHECK ret_val
        else .ok ()
      match checked with
      | .error _ => ⟨.escalated ret_val, [a]⟩
      | .ok _ =>
          if ret_val = NRF_ERROR_RESOURCES then
            let t := send_do_while string_send c data_array index fuel (j + 1)
            ⟨t.status, a :: t.attempts⟩
          else ⟨.returned, [a]⟩

/-- The `for` loop of `app_nus_client_send_data`, entered at instance `c` with
`todo` instances left. -/
def send_for (string_send : Nat → Nat → Nat) (data_array : List Nat) (index : Nat)
    (fuel : Nat) : (todo : Nat) → (c : Nat) → SendTrace
  | 0, _ => ⟨.returned, []⟩
  | todo + 1, c =>
      let t := send_do_while string_send c data_array index fuel 0
      match t.status with
      | .returned =>
          let t1 := send_for string_send data_array index fuel todo (c + 1)
          ⟨t1.status, t.attempts ++ t1.attempts⟩
      | _ => t

/-- `app_nus_client_send_data(data_array, index)`. -/
def app_nus_client_send_data (N : Nat) (string_send : Nat → Nat → Nat) (fuel : Nat)
    (data_array : List Nat) (index : Nat) : SendTrace :=
  send_for string_send data_array index fuel N 0

/-- The two calls made by `scan_start` succeed. -/
def scan_calls_ok (r : SdkResults) : Prop :=
  r.nrf_ble_scan_start = NRF_SUCCESS ∧ r.bsp_indication_set = NRF_SUCCESS

instance (r : SdkResults) : Decidable (scan_calls_ok r) := by
  unfold scan_calls_ok; infer_instance

/-- State in which a central-role Connect for `h` leaves the statics, `c` being
the pool instance found at index `h`: slot marked, instance bound, discovery
pass started. -/
def connect_marked (s : RelayState) (h : Nat) (c : ble_nus_c_t) : RelayState :=
  { s with
    ntt_client_conn_handle := s.ntt_client_conn_handle.set h 1
    m_ble_nus_c := s.m_ble_nus_c.set h { c with conn_handle := h }
    discovery_started := s.discovery_started ++ [h] }

/-- Scenario: the relay is initialised with callback 7, link 1 connects in the
central role and its discovery pass finds the UART service with handles
11, 12, 13. -/
def ready_link_scenario : Except Fault RelayState :=
  app_nus_client_init 10 init_ok (sdk_ok 0) 7 (init_state 10) >>=
    run 10 [(.ble (.BLE_GAP_EVT_CONNECTED 1 BLE_GAP_ROLE_CENTRAL), sdk_ok 1),
            (.db_disc ⟨1, some ⟨11, 12, 13⟩⟩, sdk_ok 1)]

/-- Send results in which instance 1 is busy twice and everything else succeeds. -/
def busy_twice_on_one (c j : Nat) : Nat :=
  if c = 1 ∧ j < 2 then NRF_ERROR_RESOURCES else NRF_SUCCESS

/-- Number of busy results per instance under `busy_twice_on_one`. -/
def busy_count_on_one (c : Nat) : Nat := if c = 1 then 2 else 0

/-- Send results in which instance 0 fails with `NRF_ERROR_NO_MEM` (4) and
every other instance would succeed. -/
def fatal_on_zero (c _j : Nat) : Nat := if c = 0 then 4 else NRF_SUCCESS

/-- Send results in which instance 0 succeeds, instance 1 is busy once and then
fails with `NRF_ERROR_NO_MEM` (4). -/
def fatal_on_one (c j : Nat) : Nat :=
  if c = 1 then (if j = 0 then NRF_ERROR_RESOURCES else 4) else NRF_SUCCESS

/-- Number of busy results per instance under `fatal_on_one`. -/
def busy_count_fatal (c : Nat) : Nat := if c = 1 then 1 else 0

/-- Scenario: a relay built for `NRF_SDH_BLE_CENTRAL_LINK_COUNT = 10` is
initialised, then ten central-role links, identifiers 0 to 9, connect one
after the other. -/
def full_table_scenario : Except Fault RelayState :=
  app_nus_client_init 10 init_ok (sdk_ok 0) 7 (init_state 10) >>=
    run 10 ((List.range 10).map fun h =>
      (RelayEvent.ble (.BLE_GAP_EVT_CONNECTED h BLE_GAP_ROLE_CENTRAL), sdk_ok (h + 1)))

/-- State of a relay built for ten links right after `app_nus_client_init`
registered callback 7. -/
def relay_after_init : RelayState :=
  { init_state 10 with
    m_ble_nus_c := List.replicate 10 ⟨BLE_CONN_HANDLE_INVALID, ⟨0, 0, 0⟩, false⟩
    m_on_data_received := 7
    scanning := true
    indicate_scanning := true
    db_discovery_ready := true
    scan_filter_enabled := true }

/-- State of that relay once link 1 has connected in the central role. -/
def relay_link_connected : RelayState :=
  { relay_after_init with
    ntt_client_conn_handle := relay_after_init.ntt_client_conn_handle.set 1 1
    m_ble_nus_c := relay_after_init.m_ble_nus_c.set 1 ⟨1, ⟨0, 0, 0⟩, false⟩
    led_conn_to_periph_device := true
    discovery_started := [1] }

/-- State of that relay once link 1 has connected and completed discovery with
handles 11, 12, 13. -/
def relay_link_ready : RelayState :=
  { relay_after_init with
    ntt_client_conn_handle := relay_after_init.ntt_client_conn_handle.set 1 1
    m_ble_nus_c := relay_after_init.m_ble_nus_c.set 1 ⟨1, ⟨11, 12, 13⟩, true⟩
    led_conn_to_periph_device := true
    discovery_started := [1] }

/-- Shape of the two arrays and the fact that every marked slot of the tracking
table has an index the pool also has. -/
def slots_within_pool (N : Nat) (s : RelayState) : Prop :=
  s.ntt_client_conn_handle.length = N + 2 ∧ s.m_ble_nus_c.length = N ∧
  ∀ i, s.ntt_client_conn_handle[i]? = some 1 → i < N

/-- Every pool instance is either unbound or bound to the link whose
identifier is its own index. -/
def bound_to_own_index (s : RelayState) : Prop :=
  ∀ (i : Nat) (c : ble_nus_c_t), s.m_ble_nus_c[i]? = some c →
    c.conn_handle = BLE_CONN_HANDLE_INVALID ∨ c.conn_handle = i

/-- Event `ev` is neither the Disconnect for link `h` nor a further
discovery-success report for link `h`. -/
def link_undisturbed (h : Nat) : RelayEvent → Bool
  | .ble (.BLE_GAP_EVT_DISCONNECTED h1 _) => decide (h1 ≠ h)
  | .db_disc ⟨h1, some _⟩ => decide (h1 ≠ h)
  | _ => true

/-! # Proofs -/

/-! ## Basic facts about the building blocks -/

theorem scan_start_ok (r : SdkResults) (s : RelayState) (h : scan_calls_ok r) :
    scan_start r s = .ok { s with scanning := true, indicate_scanning := true } := by
  obtain ⟨h1, h2⟩ := h
  simp [scan_start, APP_ERROR_CHECK, h1, h2, bind, Except.bind, pure, Except.pure]

theorem scan_start_eq_ok (r : SdkResults) (s s1 : RelayState) (h : scan_start r s = .ok s1) :
    s1 = { s with scanning := true, indicate_scanning := true } := by
  unfold scan_start APP_ERROR_CHECK at h
  by_cases h1 : r.nrf_ble_scan_start = NRF_SUCCESS <;>
  by_cases h2 : r.bsp_indication_set = NRF_SUCCESS <;>
  simp [h1, h2, bind, Except.bind, pure, Except.pure] at h
  exact h.symm


theorem bind_eq_ok {ε α β : Type} (x : Except ε α) (f : α → Except ε β) (b : β) :
    (x >>= f) = .ok b ↔ ∃ a, x = .ok a ∧ f a = .ok b := by
  cases x <;> simp [bind, Except.bind]

theorem pure_eq_ok {ε α : Type} (a b : α) : (pure a : Except ε α) = .ok b ↔ a = b := by
  simp [pure, Except.pure]

theorem app_error_check_eq_ok (code : Nat) (u : Unit) :
    APP_ERROR_CHECK code = .ok u ↔ code = NRF_SUCCESS := by
  unfold APP_ERROR_CHECK; split <;> simp [*]

theorem ntt_read_eq_ok (s : RelayState) (i v : Nat) :
    ntt_read s i = .ok v ↔ s.ntt_client_conn_handle[i]? = some v := by
  unfold ntt_read; split <;> simp [*]

theorem ntt_write_eq_ok (s s1 : RelayState) (i v : Nat) :
    ntt_write s i v = .ok s1 ↔ i < s.ntt_client_conn_handle.length ∧
      s1 = { s with ntt_client_conn_handle := s.ntt_client_conn_handle.set i v } := by
  unfold ntt_write; split <;> simp [*, eq_comm]

theorem pool_read_eq_ok (s : RelayState) (i : Nat) (c : ble_nus_c_t) :
    pool_read s i = .ok c ↔ s.m_ble_nus_c[i]? = some c := by
  unfold pool_read; split <;> simp [*]

theorem pool_write_eq_ok (s s1 : RelayState) (i : Nat) (c : ble_nus_c_t) :
    pool_write s i c = .ok s1 ↔ i < s.m_ble_nus_c.length ∧
      s1 = { s with m_ble_nus_c := s.m_ble_nus_c.set i c } := by
  unfold pool_write; split <;> simp [*, eq_comm]

theorem handles_assign_eq_ok (s s1 : RelayState) (i ch : Nat)
    (p : Option ble_nus_c_handles_t) :
    ble_nus_c_handles_assign s i ch p = .ok s1 ↔
      ∃ c, s.m_ble_nus_c[i]? = some c ∧
        s1 = { s with m_ble_nus_c := (s.m_ble_nus_c.set i
          { c with conn_handle := ch, handles := p.getD c.handles }) } := by
  unfold ble_nus_c_handles_assign
  simp only [bind_eq_ok, pool_read_eq_ok, pool_write_eq_ok]
  constructor
  · rintro ⟨c, hc, _, rfl⟩
    refine ⟨c, hc, ?_⟩
    cases p <;> rfl
  · rintro ⟨c, hc, rfl⟩
    refine ⟨c, hc, ?_, ?_⟩
    · exact (List.getElem?_eq_some_iff.mp hc).1
    · cases p <;> rfl

theorem tx_notif_enable_eq_ok (s s1 : RelayState) (i : Nat) :
    ble_nus_c_tx_notif_enable s i = .ok s1 ↔
      ∃ c, s.m_ble_nus_c[i]? = some c ∧
        s1 = { s with m_ble_nus_c := s.m_ble_nus_c.set i { c with tx_notif_enabled := true } } := by
  unfold ble_nus_c_tx_notif_enable
  simp only [bind_eq_ok, pool_read_eq_ok, pool_write_eq_ok]
  constructor
  · rintro ⟨c, hc, _, rfl⟩
    exact ⟨c, hc, rfl⟩
  · rintro ⟨c, hc, rfl⟩
    exact ⟨c, hc, (List.getElem?_eq_some_iff.mp hc).1, rfl⟩

theorem scan_start_eq_ok_iff (r : SdkResults) (s s1 : RelayState) :
    scan_start r s = .ok s1 ↔
      scan_calls_ok r ∧ s1 = { s with scanning := true, indicate_scanning := true } := by
  unfold scan_start scan_calls_ok
  simp only [bind_eq_ok, pure_eq_ok, app_error_check_eq_ok]
  constructor
  · rintro ⟨_, h1, _, h2, rfl⟩
    exact ⟨⟨h1, h2⟩, rfl⟩
  · rintro ⟨⟨h1, h2⟩, rfl⟩
    exact ⟨(), h1, (), h2, rfl⟩


/-! ## What each handler does when it runs to its end -/

theorem connect_central_eq_ok (N : Nat) (r : SdkResults) (h : Nat) (s s1 : RelayState) :
    app_nus_client_ble_evt_handler N r (.BLE_GAP_EVT_CONNECTED h BLE_GAP_ROLE_CENTRAL) s
      = .ok s1 ↔
    ∃ c, h < s.ntt_client_conn_handle.length ∧ s.m_ble_nus_c[h]? = some c ∧
      r.ble_nus_c_handles_assign = NRF_SUCCESS ∧ r.ble_db_discovery_start = NRF_SUCCESS ∧
      ((r.ble_conn_state_central_conn_count < N ∧ scan_calls_ok r ∧
          s1 = { connect_marked s h c with
                  led_conn_to_periph_device := true, led_conn_to_periph_full := false,
                  scanning := true, indicate_scanning := true }) ∨
       (¬ r.ble_conn_state_central_conn_count < N ∧
          s1 = { connect_marked s h c with led_conn_to_periph_full := true })) := by
  simp only [app_nus_client_ble_evt_handler, if_true, bind_eq_ok, ntt_write_eq_ok,
    handles_assign_eq_ok, app_error_check_eq_ok]
  constructor
  · rintro ⟨_, ⟨hlt, rfl⟩, _, ⟨c, hc, rfl⟩, _, ha, _, hd, hrest⟩
    refine ⟨c, hlt, hc, ha, hd, ?_⟩
    by_cases hn : r.ble_conn_state_central_conn_count < N
    · rw [if_pos hn, scan_start_eq_ok_iff] at hrest
      exact Or.inl ⟨hn, hrest.1, hrest.2⟩
    · rw [if_neg hn, pure_eq_ok] at hrest
      exact Or.inr ⟨hn, hrest.symm⟩
  · rintro ⟨c, hlt, hc, ha, hd, hcase⟩
    refine ⟨_, ⟨hlt, rfl⟩, _, ⟨c, hc, rfl⟩, (), ha, (), hd, ?_⟩
    rcases hcase with ⟨hn, hs, rfl⟩ | ⟨hn, rfl⟩
    · rw [if_pos hn, scan_start_eq_ok_iff]
      exact ⟨hs, rfl⟩
    · rw [if_neg hn, pure_eq_ok]
      rfl

theorem connect_other_role (N : Nat) (r : SdkResults) (h role : Nat) (s : RelayState)
    (hrole : role ≠ BLE_GAP_ROLE_CENTRAL) :
    app_nus_client_ble_evt_handler N r (.BLE_GAP_EVT_CONNECTED h role) s = .ok s := by
  simp [app_nus_client_ble_evt_handler, hrole, pure, Except.pure]

theorem disconnect_eq_ok (N : Nat) (r : SdkResults) (h reason : Nat) (s s1 : RelayState) :
    app_nus_client_ble_evt_handler N r (.BLE_GAP_EVT_DISCONNECTED h reason) s = .ok s1 ↔
    ∃ v, s.ntt_client_conn_handle[h]? = some v ∧ scan_calls_ok r ∧
      s1 = (if v = 1 then
              { s with
                ntt_client_conn_handle := s.ntt_client_conn_handle.set h 0
                led_conn_to_periph_device :=
                  if r.ble_conn_state_central_conn_count = 0 then false
                  else s.led_conn_to_periph_device
                scanning := true, indicate_scanning := true }
            else { s with scanning := true, indicate_scanning := true }) := by
  simp only [app_nus_client_ble_evt_handler, bind_eq_ok, ntt_read_eq_ok]
  constructor
  · rintro ⟨v, hv, s0, h0, hs⟩
    rw [scan_start_eq_ok_iff] at hs
    refine ⟨v, hv, hs.1, ?_⟩
    rw [hs.2]
    by_cases h1 : v = 1
    · rw [if_pos h1] at h0 ⊢
      rw [bind_eq_ok] at h0
      obtain ⟨s2, h2, h3⟩ := h0
      rw [ntt_write_eq_ok] at h2
      obtain ⟨_, rfl⟩ := h2
      by_cases hz : r.ble_conn_state_central_conn_count = 0
      · rw [if_pos hz, pure_eq_ok] at h3
        subst h3
        simp [hz]
      · rw [if_neg hz, pure_eq_ok] at h3
        subst h3
        simp [hz]
    · rw [if_neg h1] at h0 ⊢
      rw [pure_eq_ok] at h0
      subst h0
      rfl
  · rintro ⟨v, hv, hs, rfl⟩
    have hlt : h < s.ntt_client_conn_handle.length := (List.getElem?_eq_some_iff.mp hv).1
    refine ⟨v, hv, ?_⟩
    by_cases h1 : v = 1
    · simp only [if_pos h1]
      by_cases hz : r.ble_conn_state_central_conn_count = 0
      · refine ⟨{ s with ntt_client_conn_handle := s.ntt_client_conn_handle.set h 0,
                         led_conn_to_periph_device := false }, ?_, ?_⟩
        · rw [bind_eq_ok]
          exact ⟨_, (ntt_write_eq_ok _ _ _ _).2 ⟨hlt, rfl⟩, by rw [if_pos hz]; rfl⟩
        · rw [scan_start_eq_ok_iff]
          exact ⟨hs, by simp [hz]⟩
      · refine ⟨{ s with ntt_client_conn_handle := s.ntt_client_conn_handle.set h 0 }, ?_, ?_⟩
        · rw [bind_eq_ok]
          exact ⟨_, (ntt_write_eq_ok _ _ _ _).2 ⟨hlt, rfl⟩, by rw [if_neg hz]; rfl⟩
        · rw [scan_start_eq_ok_iff]
          exact ⟨hs, by simp [hz]⟩
    · simp only [if_neg h1]
      exact ⟨s, rfl, (scan_start_eq_ok_iff _ _ _).2 ⟨hs, rfl⟩⟩


theorem discovery_complete_eq_ok (r : SdkResults) (i h : Nat) (H : ble_nus_c_handles_t)
    (s s1 : RelayState) :
    ble_nus_c_evt_handler r i (.BLE_NUS_C_EVT_DISCOVERY_COMPLETE h H) s = .ok s1 ↔
    ∃ c, s.m_ble_nus_c[i]? = some c ∧ r.ble_nus_c_handles_assign = NRF_SUCCESS ∧
      r.ble_nus_c_tx_notif_enable = NRF_SUCCESS ∧
      s1 = { s with m_ble_nus_c := s.m_ble_nus_c.set i ⟨h, H, true⟩ } := by
  simp only [ble_nus_c_evt_handler, bind_eq_ok, handles_assign_eq_ok, tx_notif_enable_eq_ok,
    app_error_check_eq_ok, pure_eq_ok]
  constructor
  · rintro ⟨_, ⟨c, hc, rfl⟩, _, ha, _, ⟨c1, hc1, rfl⟩, _, hn, rfl⟩
    have hlt : i < s.m_ble_nus_c.length := (List.getElem?_eq_some_iff.mp hc).1
    refine ⟨c, hc, ha, hn, ?_⟩
    simp [List.getElem?_set, hlt] at hc1
    subst hc1
    simp
  · rintro ⟨c, hc, ha, hn, rfl⟩
    have hlt : i < s.m_ble_nus_c.length := (List.getElem?_eq_some_iff.mp hc).1
    refine ⟨_, ⟨c, hc, rfl⟩, (), ha, _, ⟨⟨h, H, c.tx_notif_enabled⟩, ?_, rfl⟩, (), hn, ?_⟩
    · simp [List.getElem?_set, hlt]
    · simp

theorem nus_tx_eq (r : SdkResults) (i : Nat) (p_data : List Nat) (data_len : Nat)
    (s : RelayState) :
    ble_nus_c_evt_handler r i (.BLE_NUS_C_EVT_NUS_TX_EVT p_data data_len) s =
      .ok (if s.m_on_data_received ≠ 0 then
             { s with delivered := s.delivered ++ [⟨s.m_on_data_received, p_data, data_len⟩] }
           else s) := by
  unfold ble_nus_c_evt_handler
  by_cases h : s.m_on_data_received = 0 <;> simp [h, pure, Except.pure]

theorem db_disc_found_eq_ok (r : SdkResults) (h : Nat) (H : ble_nus_c_handles_t)
    (s s1 : RelayState) :
    db_disc_handler r ⟨h, some H⟩ s = .ok s1 ↔
    ∃ c, s.m_ble_nus_c[h]? = some c ∧ r.ble_nus_c_handles_assign = NRF_SUCCESS ∧
      r.ble_nus_c_tx_notif_enable = NRF_SUCCESS ∧
      s1 = { s with m_ble_nus_c := s.m_ble_nus_c.set h ⟨h, H, true⟩ } := by
  simp only [db_disc_handler, discovery_complete_eq_ok]

theorem scan_evt_eq_ok (r : SdkResults) (e : scan_evt_t) (s s1 : RelayState)
    (h : scan_evt_handler r e s = .ok s1) :
    s1 = s ∨ s1 = { s with scanning := true, indicate_scanning := true } := by
  cases e with
  | NRF_BLE_SCAN_EVT_CONNECTING_ERROR err_code =>
      simp only [scan_evt_handler, bind_eq_ok, pure_eq_ok] at h
      obtain ⟨_, _, rfl⟩ := h
      exact Or.inl rfl
  | NRF_BLE_SCAN_EVT_CONNECTED =>
      simp only [scan_evt_handler, pure_eq_ok] at h
      exact Or.inl h.symm
  | NRF_BLE_SCAN_EVT_SCAN_TIMEOUT =>
      simp only [scan_evt_handler, scan_start_eq_ok_iff] at h
      exact Or.inr h.2
  | other =>
      simp only [scan_evt_handler, pure_eq_ok] at h
      exact Or.inl h.symm


/-! ## Scan controller -/

/-- C8: `scan_start` is idempotent.  When its two SDK calls succeed, running it
a second time right after the first gives the state of the first run, and
after a run the scan session is active and the scanning indication is
asserted, whatever they were before. -/
theorem scan_start_idempotent (r1 r2 : SdkResults) (s : RelayState)
    (h1 : scan_calls_ok r1) (h2 : scan_calls_ok r2) :
    (scan_start r1 s >>= scan_start r2) = scan_start r1 s ∧
    ∃ s1, scan_start r1 s = .ok s1 ∧ s1.scanning = true ∧ s1.indicate_scanning = true := by
  rw [scan_start_ok r1 s h1]
  refine ⟨?_, _, rfl, rfl, rfl⟩
  show scan_start r2 _ = _
  rw [scan_start_ok r2 _ h2]

theorem scan_start_idempotent_witness :
    scan_calls_ok (sdk_ok 0) ∧
    ((scan_start (sdk_ok 0) (init_state 10) >>= scan_start (sdk_ok 0))
        = scan_start (sdk_ok 0) (init_state 10) ∧
      ∃ s1, scan_start (sdk_ok 0) (init_state 10) = .ok s1 ∧ s1.scanning = true ∧
        s1.indicate_scanning = true) :=
  ⟨by decide, scan_start_idempotent (sdk_ok 0) (sdk_ok 0) (init_state 10) (by decide) (by decide)⟩

/-! ## Disconnect events -/

/-- C2 (as the code has it): a Disconnect for an identifier that is inside the
tracking table and not tracked leaves the table, the pool and both connection
LEDs as they were, and restarts scanning: the scan session is active and the
scanning indication asserted afterwards. -/
theorem disconnect_untracked_restarts_scan (N : Nat) (r : SdkResults) (h reason : Nat)
    (s : RelayState) (hlt : h < s.ntt_client_conn_handle.length) (hu : ¬ tracked s h)
    (hs : scan_calls_ok r) :
    app_nus_client_ble_evt_handler N r (.BLE_GAP_EVT_DISCONNECTED h reason) s =
      .ok { s with scanning := true, indicate_scanning := true } := by
  rw [disconnect_eq_ok]
  refine ⟨s.ntt_client_conn_handle[h], List.getElem?_eq_getElem hlt, hs, ?_⟩
  have hv : s.ntt_client_conn_handle[h] ≠ 1 := by
    intro h1
    apply hu
    unfold tracked
    rw [List.getElem?_eq_getElem hlt, h1]
  rw [if_neg hv]

theorem disconnect_untracked_restarts_scan_witness :
    3 < (init_state 10).ntt_client_conn_handle.length ∧ ¬ tracked (init_state 10) 3 ∧
    scan_calls_ok (sdk_ok 0) ∧
    app_nus_client_ble_evt_handler 10 (sdk_ok 0) (.BLE_GAP_EVT_DISCONNECTED 3 19)
        (init_state 10) =
      .ok { init_state 10 with scanning := true, indicate_scanning := true } :=
  ⟨by decide, by decide, by decide,
    disconnect_untracked_restarts_scan 10 (sdk_ok 0) 3 19 (init_state 10)
      (by decide) (by decide) (by decide)⟩

/-- C2 fails as stated: a Disconnect for the untracked identifier 3 is not a
no-op.  On the statics before scanning was ever started it starts the scan
session and asserts the scanning indication; on an initialised relay whose
scan session is stopped (the link layer stops it when it connects to a match)
it starts the scan session again. -/
theorem disconnect_untracked_not_noop :
    ¬ tracked (init_state 10) 3 ∧
    (init_state 10).scanning = false ∧ (init_state 10).indicate_scanning = false ∧
    app_nus_client_ble_evt_handler 10 (sdk_ok 0) (.BLE_GAP_EVT_DISCONNECTED 3 19)
        (init_state 10) ≠ .ok (init_state 10) ∧
    (app_nus_client_ble_evt_handler 10 (sdk_ok 0) (.BLE_GAP_EVT_DISCONNECTED 3 19)
        (init_state 10)).toOption.map (fun s => (s.scanning, s.indicate_scanning)) =
      some (true, true) ∧
    ¬ tracked { relay_after_init with scanning := false } 3 ∧
    (app_nus_client_ble_evt_handler 10 (sdk_ok 0) (.BLE_GAP_EVT_DISCONNECTED 3 19)
        { relay_after_init with scanning := false }).toOption.map (fun s => s.scanning) =
      some true := by
  decide

/-- C3 (as the code has it): a Disconnect for a tracked identifier `h`, with any
reason code, untracks `h`, leaves scanning active with its indication
asserted, switches the connected-to-peripheral LED off when the central
connection count is zero and leaves it alone otherwise; the handler does not
touch the client pool or the at-capacity LED. -/
theorem disconnect_tracked (N : Nat) (r : SdkResults) (h reason : Nat) (s : RelayState)
    (ht : tracked s h) (hs : scan_calls_ok r) :
    ∃ s1, app_nus_client_ble_evt_handler N r (.BLE_GAP_EVT_DISCONNECTED h reason) s = .ok s1 ∧
      ¬ tracked s1 h ∧ s1.scanning = true ∧ s1.indicate_scanning = true ∧
      (r.ble_conn_state_central_conn_count = 0 → s1.led_conn_to_periph_device = false) ∧
      (r.ble_conn_state_central_conn_count ≠ 0 →
        s1.led_conn_to_periph_device = s.led_conn_to_periph_device) ∧
      s1.m_ble_nus_c = s.m_ble_nus_c ∧
      s1.led_conn_to_periph_full = s.led_conn_to_periph_full := by
  have hlt : h < s.ntt_client_conn_handle.length := (List.getElem?_eq_some_iff.mp ht).1
  refine ⟨_, (disconnect_eq_ok N r h reason s _).2 ⟨1, ht, hs, rfl⟩, ?_⟩
  rw [if_pos rfl]
  refine ⟨?_, rfl, rfl, ?_, ?_, rfl, rfl⟩
  · simp [tracked, List.getElem?_set, hlt]
  · intro hz; simp [hz]
  · intro hz; simp [hz]

theorem disconnect_tracked_witness :
    tracked { init_state 10 with
              ntt_client_conn_handle := (init_state 10).ntt_client_conn_handle.set 1 1 } 1 ∧
    scan_calls_ok (sdk_ok 0) ∧
    ∃ s1, app_nus_client_ble_evt_handler 10 (sdk_ok 0) (.BLE_GAP_EVT_DISCONNECTED 1 19)
        { init_state 10 with
          ntt_client_conn_handle := (init_state 10).ntt_client_conn_handle.set 1 1 } = .ok s1 ∧
      ¬ tracked s1 1 ∧ s1.scanning = true ∧ s1.indicate_scanning = true ∧
      ((sdk_ok 0).ble_conn_state_central_conn_count = 0 →
        s1.led_conn_to_periph_device = false) ∧
      ((sdk_ok 0).ble_conn_state_central_conn_count ≠ 0 →
        s1.led_conn_to_periph_device = (init_state 10).led_conn_to_periph_device) ∧
      s1.m_ble_nus_c = (init_state 10).m_ble_nus_c ∧
      s1.led_conn_to_periph_full = (init_state 10).led_conn_to_periph_full :=
  ⟨by decide, by decide,
    disconnect_tracked 10 (sdk_ok 0) 1 19 _ (by decide) (by decide)⟩

/-- C3 fails as stated: after link 1 connected and completed discovery, the
Disconnect for link 1 untracks it but leaves pool instance 1 bound to link 1
with its handles and notification flag; the handler releases nothing in the
pool. -/
theorem disconnect_keeps_pool_instance :
    (ready_link_scenario >>=
        app_nus_client_ble_evt_handler 10 (sdk_ok 0) (.BLE_GAP_EVT_DISCONNECTED 1 19)).toOption.map
      (fun s => (decide (tracked s 1), s.m_ble_nus_c[1]?)) =
    some (false, some ⟨1, ⟨11, 12, 13⟩, true⟩) := by
  decide


/-! ## Connect, then discovery -/

/-- C10: with the tracking table of `NRF_SDH_BLE_CENTRAL_LINK_COUNT + 2` entries
and the pool of `NRF_SDH_BLE_CENTRAL_LINK_COUNT`, a central-role Connect for
identifier `h` stays inside both arrays exactly when
`h < NRF_SDH_BLE_CENTRAL_LINK_COUNT`; the identifier
`NRF_SDH_BLE_CENTRAL_LINK_COUNT` itself is accepted by the table and misses
the pool. -/
theorem connect_in_bounds_iff (N : Nat) (r : SdkResults) (h : Nat) (s : RelayState)
    (hn : s.ntt_client_conn_handle.length = N + 2) (hp : s.m_ble_nus_c.length = N) :
    (app_nus_client_ble_evt_handler N r (.BLE_GAP_EVT_CONNECTED h BLE_GAP_ROLE_CENTRAL) s
        ≠ .error .out_of_bounds ↔ h < N) ∧
    (∃ s1, ntt_write s N 1 = .ok s1) ∧ pool_read s N = .error .out_of_bounds := by
  refine ⟨?_, ⟨_, (ntt_write_eq_ok s _ N 1).2 ⟨by omega, rfl⟩⟩, ?_⟩
  · constructor
    · intro hne
      by_contra hge
      apply hne
      by_cases hlt : h < s.ntt_client_conn_handle.length
      · have hnone : s.m_ble_nus_c[h]? = none := List.getElem?_eq_none (by omega)
        simp [app_nus_client_ble_evt_handler, ntt_write, hlt, ble_nus_c_handles_assign,
          pool_read, hnone, bind, Except.bind]
      · simp [app_nus_client_ble_evt_handler, ntt_write, hlt, bind, Except.bind]
    · intro hlt
      have hlt1 : h < s.ntt_client_conn_handle.length := by omega
      have hlt2 : h < s.m_ble_nus_c.length := by omega
      have hc : s.m_ble_nus_c[h]? = some s.m_ble_nus_c[h] := List.getElem?_eq_getElem hlt2
      simp only [app_nus_client_ble_evt_handler, if_true, ntt_write, if_pos hlt1,
        ble_nus_c_handles_assign, pool_read, pool_write, hc, bind, Except.bind, if_pos hlt2,
        APP_ERROR_CHECK, scan_start]
      by_cases a : r.ble_nus_c_handles_assign = NRF_SUCCESS <;>
      by_cases b : r.ble_db_discovery_start = NRF_SUCCESS <;>
      by_cases c : r.ble_conn_state_central_conn_count < N <;>
      by_cases d : r.nrf_ble_scan_start = NRF_SUCCESS <;>
      by_cases e : r.bsp_indication_set = NRF_SUCCESS <;>
      simp [a, b, c, d, e, pure, Except.pure]
  · have hnone : s.m_ble_nus_c[N]? = none := List.getElem?_eq_none (by omega)
    simp [pool_read, hnone]

theorem connect_in_bounds_iff_witness :
    (init_state 10).ntt_client_conn_handle.length = 10 + 2 ∧
    (init_state 10).m_ble_nus_c.length = 10 ∧
    ((app_nus_client_ble_evt_handler 10 (sdk_ok 0)
        (.BLE_GAP_EVT_CONNECTED 10 BLE_GAP_ROLE_CENTRAL) (init_state 10)
        ≠ .error .out_of_bounds ↔ 10 < 10) ∧
    (∃ s1, ntt_write (init_state 10) 10 1 = .ok s1) ∧
    pool_read (init_state 10) 10 = .error .out_of_bounds) :=
  ⟨by decide, by decide,
    connect_in_bounds_iff 10 (sdk_ok 0) 10 (init_state 10) (by decide) (by decide)⟩


/-! ## Outbound broadcast -/

theorem send_do_while_attempts (ss : Nat → Nat → Nat) (c : Nat) (d : List Nat) (ix : Nat) :
    ∀ (fuel j : Nat) (a : SendAttempt),
      a ∈ (send_do_while ss c d ix fuel j).attempts → a = ⟨c, d, ix⟩ := by
  intro fuel
  induction fuel with
  | zero => intro j a ha; simp [send_do_while] at ha
  | succ f ih =>
      intro j a ha
      unfold send_do_while at ha
      simp only at ha
      split at ha
      · simpa using ha
      · split at ha
        · simp only [List.mem_cons] at ha
          rcases ha with rfl | ha
          · rfl
          · exact ih _ _ ha
        · simpa using ha

/-- The loop on one instance: busy `k` times from attempt `j` on, then a result
that is not busy, with more than `k` attempts observed. -/
theorem send_do_while_busy (ss : Nat → Nat → Nat) (c : Nat) (d : List Nat) (ix : Nat) :
    ∀ (k fuel j : Nat), (∀ i < k, ss c (j + i) = NRF_ERROR_RESOURCES) →
      ss c (j + k) ≠ NRF_ERROR_RESOURCES → k < fuel →
      send_do_while ss c d ix fuel j =
        ⟨if ss c (j + k) = NRF_SUCCESS ∨ ss c (j + k) = NRF_ERROR_INVALID_STATE then .returned
          else .escalated (ss c (j + k)),
         List.replicate (k + 1) ⟨c, d, ix⟩⟩ := by
  intro k
  induction k with
  | zero =>
      intro fuel j _ hdone hf
      obtain ⟨f, rfl⟩ : ∃ f, fuel = f + 1 := ⟨fuel - 1, by omega⟩
      simp only [Nat.add_zero] at hdone ⊢
      unfold send_do_while
      by_cases h0 : ss c j = NRF_SUCCESS
      · simp [h0, APP_ERROR_CHECK, NRF_SUCCESS, NRF_ERROR_INVALID_STATE, NRF_ERROR_RESOURCES]
      · by_cases h8 : ss c j = NRF_ERROR_INVALID_STATE
        · simp [h8, NRF_SUCCESS, NRF_ERROR_INVALID_STATE, NRF_ERROR_RESOURCES]
        · simp [h0, h8, hdone, APP_ERROR_CHECK]
  | succ k ih =>
      intro fuel j hbusy hdone hf
      obtain ⟨f, rfl⟩ : ∃ f, fuel = f + 1 := ⟨fuel - 1, by omega⟩
      have hj : ss c j = NRF_ERROR_RESOURCES := by simpa using hbusy 0 (by omega)
      have ih1 := ih f (j + 1)
        (fun i hi => by have := hbusy (i + 1) (by omega); rwa [← Nat.add_assoc, Nat.add_right_comm] at this)
        (by rwa [Nat.add_assoc, Nat.add_comm 1 k]) (by omega)
      unfold send_do_while
      simp only [hj, ne_eq, not_true_eq_false, and_false, if_false, if_true]
      rw [ih1]
      simp [Nat.add_assoc, Nat.add_comm 1 k, List.replicate_succ]


theorem send_for_attempts_ge (ss : Nat → Nat → Nat) (d : List Nat) (ix fuel : Nat) :
    ∀ (todo c0 : Nat) (a : SendAttempt),
      a ∈ (send_for ss d ix fuel todo c0).attempts → c0 ≤ a.c := by
  intro todo
  induction todo with
  | zero => intro c0 a ha; simp [send_for] at ha
  | succ m ih =>
      intro c0 a ha
      unfold send_for at ha
      simp only at ha
      split at ha
      · simp only [List.mem_append] at ha
        rcases ha with ha | ha
        · rw [send_do_while_attempts ss c0 d ix _ _ a ha]
        · exact Nat.le_of_succ_le (ih _ _ ha)
      · rw [send_do_while_attempts ss c0 d ix _ _ a ha]

/-- Instances below `c` that each clear after finitely many busy results and end
without a fatal code only contribute attempts of their own before the loop
reaches instance `c`. -/
theorem send_for_reaches (ss : Nat → Nat → Nat) (d : List Nat) (ix fuel c : Nat)
    (k : Nat → Nat)
    (hprev : ∀ i < c, (∀ j < k i, ss i j = NRF_ERROR_RESOURCES) ∧
      (ss i (k i) = NRF_SUCCESS ∨ ss i (k i) = NRF_ERROR_INVALID_STATE))
    (hfuel : ∀ i < c, k i < fuel) :
    ∀ (todo c0 : Nat), c0 ≤ c → c < c0 + todo →
      ∃ pre, (∀ a ∈ pre, a.c < c) ∧
        send_for ss d ix fuel todo c0 =
          ⟨(send_for ss d ix fuel (c0 + todo - c) c).status,
           pre ++ (send_for ss d ix fuel (c0 + todo - c) c).attempts⟩ := by
  intro todo
  induction todo with
  | zero => intro c0 h1 h2; omega
  | succ m ih =>
      intro c0 h1 h2
      rcases Nat.eq_or_lt_of_le h1 with rfl | hlt
      · refine ⟨[], by simp, ?_⟩
        simp
      · obtain ⟨hb, hd⟩ := hprev c0 hlt
        have hne : ss c0 (0 + k c0) ≠ NRF_ERROR_RESOURCES := by
          rw [Nat.zero_add]
          rcases hd with hd | hd <;> rw [hd] <;> decide
        have hrun := send_do_while_busy ss c0 d ix (k c0) fuel 0
          (fun i hi => by rw [Nat.zero_add]; exact hb i hi) hne (hfuel c0 hlt)
        rw [Nat.zero_add] at hrun
        rw [if_pos hd] at hrun
        obtain ⟨pre, hpre, heq⟩ := ih (c0 + 1) hlt (by omega)
        refine ⟨List.replicate (k c0 + 1) ⟨c0, d, ix⟩ ++ pre, ?_, ?_⟩
        · intro a ha
          simp only [List.mem_append] at ha
          rcases ha with ha | ha
          · rw [(List.mem_replicate.mp ha).2]; exact hlt
          · exact hpre a ha
        · have e : c0 + 1 + m - c = c0 + (m + 1) - c := by omega
          rw [e] at heq
          conv => lhs; unfold send_for
          simp only [hrun]
          rw [heq]
          simp


/-- C6: the send on a pool instance is retried exactly while the result is
`NRF_ERROR_RESOURCES`.  When the instances before `c` clear without a fatal
code and instance `c` answers busy `k c` times and then with a result that is
not busy, the attempts of the broadcast are: attempts on lower instances, then
exactly `k c + 1` attempts on `c`, each with the payload and length passed in,
then only attempts on higher instances. -/
theorem send_retried_exactly_while_busy (N : Nat) (ss : Nat → Nat → Nat) (fuel : Nat)
    (d : List Nat) (ix c : Nat) (k : Nat → Nat) (hc : c < N)
    (hprev : ∀ i < c, (∀ j < k i, ss i j = NRF_ERROR_RESOURCES) ∧
      (ss i (k i) = NRF_SUCCESS ∨ ss i (k i) = NRF_ERROR_INVALID_STATE))
    (hbusy : ∀ j < k c, ss c j = NRF_ERROR_RESOURCES)
    (hdone : ss c (k c) ≠ NRF_ERROR_RESOURCES)
    (hfuel : ∀ i ≤ c, k i < fuel) :
    ∃ pre post,
      (app_nus_client_send_data N ss fuel d ix).attempts =
        pre ++ List.replicate (k c + 1) ⟨c, d, ix⟩ ++ post ∧
      (∀ a ∈ pre, a.c < c) ∧ (∀ a ∈ post, c < a.c) := by
  obtain ⟨pre, hpre, heq⟩ := send_for_reaches ss d ix fuel c k hprev
    (fun i hi => hfuel i (Nat.le_of_lt hi)) N 0 (Nat.zero_le _) (by omega)
  obtain ⟨m, hm⟩ : ∃ m, 0 + N - c = m + 1 := ⟨N - c - 1, by omega⟩
  have hrun := send_do_while_busy ss c d ix (k c) fuel 0
    (fun i hi => by rw [Nat.zero_add]; exact hbusy i hi) (by rwa [Nat.zero_add])
    (hfuel c (Nat.le_refl _))
  rw [Nat.zero_add] at hrun
  unfold app_nus_client_send_data
  rw [heq, hm]
  by_cases hok : ss c (k c) = NRF_SUCCESS ∨ ss c (k c) = NRF_ERROR_INVALID_STATE
  · rw [if_pos hok] at hrun
    refine ⟨pre, (send_for ss d ix fuel m (c + 1)).attempts, ?_, hpre, ?_⟩
    · conv => lhs; unfold send_for
      simp only [hrun]
      simp
    · intro a ha
      exact send_for_attempts_ge ss d ix fuel m (c + 1) a ha
  · rw [if_neg hok] at hrun
    refine ⟨pre, [], ?_, hpre, by simp⟩
    conv => lhs; unfold send_for
    simp only [hrun]
    simp

theorem send_retried_exactly_while_busy_witness :
    1 < 10 ∧
    (∀ i < 1, (∀ j < busy_count_on_one i, busy_twice_on_one i j = NRF_ERROR_RESOURCES) ∧
      (busy_twice_on_one i (busy_count_on_one i) = NRF_SUCCESS ∨
        busy_twice_on_one i (busy_count_on_one i) = NRF_ERROR_INVALID_STATE)) ∧
    (∀ j < busy_count_on_one 1, busy_twice_on_one 1 j = NRF_ERROR_RESOURCES) ∧
    busy_twice_on_one 1 (busy_count_on_one 1) ≠ NRF_ERROR_RESOURCES ∧
    (∀ i ≤ 1, busy_count_on_one i < 5) ∧
    ∃ pre post,
      (app_nus_client_send_data 10 busy_twice_on_one 5 [1, 2] 2).attempts =
        pre ++ List.replicate (busy_count_on_one 1 + 1) ⟨1, [1, 2], 2⟩ ++ post ∧
      (∀ a ∈ pre, a.c < 1) ∧ (∀ a ∈ post, 1 < a.c) :=
  ⟨by decide, by decide, by decide, by decide, by decide,
    send_retried_exactly_while_busy 10 busy_twice_on_one 5 [1, 2] 2 1 busy_count_on_one
      (by decide) (by decide) (by decide) (by decide) (by decide)⟩

/-- C5 (as the code has it): a fatal send result on instance `c`, reached after
the lower instances cleared without a fatal code, is escalated through
`APP_ERROR_CHECK` and ends the broadcast: the run ends escalated with that code
and no instance with a higher index receives a send attempt. -/
theorem fatal_send_ends_broadcast (N : Nat) (ss : Nat → Nat → Nat) (fuel : Nat)
    (d : List Nat) (ix c : Nat) (k : Nat → Nat) (hc : c < N)
    (hprev : ∀ i < c, (∀ j < k i, ss i j = NRF_ERROR_RESOURCES) ∧
      (ss i (k i) = NRF_SUCCESS ∨ ss i (k i) = NRF_ERROR_INVALID_STATE))
    (hbusy : ∀ j < k c, ss c j = NRF_ERROR_RESOURCES)
    (hfatal : ss c (k c) ≠ NRF_ERROR_RESOURCES ∧ ss c (k c) ≠ NRF_ERROR_INVALID_STATE ∧
      ss c (k c) ≠ NRF_SUCCESS)
    (hfuel : ∀ i ≤ c, k i < fuel) :
    (app_nus_client_send_data N ss fuel d ix).status = .escalated (ss c (k c)) ∧
    ∀ a ∈ (app_nus_client_send_data N ss fuel d ix).attempts, a.c ≤ c := by
  obtain ⟨pre, hpre, heq⟩ := send_for_reaches ss d ix fuel c k hprev
    (fun i hi => hfuel i (Nat.le_of_lt hi)) N 0 (Nat.zero_le _) (by omega)
  obtain ⟨m, hm⟩ : ∃ m, 0 + N - c = m + 1 := ⟨N - c - 1, by omega⟩
  have hrun := send_do_while_busy ss c d ix (k c) fuel 0
    (fun i hi => by rw [Nat.zero_add]; exact hbusy i hi) (by rw [Nat.zero_add]; exact hfatal.1)
    (hfuel c (Nat.le_refl _))
  rw [Nat.zero_add] at hrun
  have hok : ¬ (ss c (k c) = NRF_SUCCESS ∨ ss c (k c) = NRF_ERROR_INVALID_STATE) := by
    rintro (h | h)
    · exact hfatal.2.2 h
    · exact hfatal.2.1 h
  rw [if_neg hok] at hrun
  have hstep : send_for ss d ix fuel (m + 1) c =
      ⟨.escalated (ss c (k c)), List.replicate (k c + 1) ⟨c, d, ix⟩⟩ := by
    conv => lhs; unfold send_for
    simp only [hrun]
  unfold app_nus_client_send_data
  rw [heq, hm, hstep]
  refine ⟨rfl, ?_⟩
  intro a ha
  simp only [List.mem_append] at ha
  rcases ha with ha | ha
  · exact Nat.le_of_lt (hpre a ha)
  · rw [(List.mem_replicate.mp ha).2]

theorem fatal_send_ends_broadcast_witness :
    1 < 10 ∧
    (∀ i < 1, (∀ j < busy_count_fatal i, fatal_on_one i j = NRF_ERROR_RESOURCES) ∧
      (fatal_on_one i (busy_count_fatal i) = NRF_SUCCESS ∨
        fatal_on_one i (busy_count_fatal i) = NRF_ERROR_INVALID_STATE)) ∧
    (∀ j < busy_count_fatal 1, fatal_on_one 1 j = NRF_ERROR_RESOURCES) ∧
    (fatal_on_one 1 (busy_count_fatal 1) ≠ NRF_ERROR_RESOURCES ∧
      fatal_on_one 1 (busy_count_fatal 1) ≠ NRF_ERROR_INVALID_STATE ∧
      fatal_on_one 1 (busy_count_fatal 1) ≠ NRF_SUCCESS) ∧
    (∀ i ≤ 1, busy_count_fatal i < 5) ∧
    ((app_nus_client_send_data 10 fatal_on_one 5 [1, 2] 2).status =
        .escalated (fatal_on_one 1 (busy_count_fatal 1)) ∧
      ∀ a ∈ (app_nus_client_send_data 10 fatal_on_one 5 [1, 2] 2).attempts, a.c ≤ 1) :=
  ⟨by decide, by decide, by decide, by decide, by decide,
    fatal_send_ends_broadcast 10 fatal_on_one 5 [1, 2] 2 1 busy_count_fatal
      (by decide) (by decide) (by decide) (by decide) (by decide)⟩

/-- C5 fails as stated: with ten instances, a fatal result (code 4) on instance
0 ends the broadcast after that single attempt; instances 1 to 9, which would
all have accepted the payload, receive no send attempt. -/
theorem fatal_send_blocks_later_instances :
    app_nus_client_send_data 10 fatal_on_zero 5 [1, 2] 2 =
      ⟨.escalated 4, [⟨0, [1, 2], 2⟩]⟩ := by
  decide


/-! ## Effect of one event on the table, the pool and the callback -/

theorem step_table (N : Nat) (r : SdkResults) (ev : RelayEvent) (s s1 : RelayState)
    (hs : step N r ev s = .ok s1) :
    s1.ntt_client_conn_handle = s.ntt_client_conn_handle ∨
    (∃ h, h < s.m_ble_nus_c.length ∧
      s1.ntt_client_conn_handle = s.ntt_client_conn_handle.set h 1) ∨
    (∃ h, s1.ntt_client_conn_handle = s.ntt_client_conn_handle.set h 0) := by
  cases ev with
  | ble e =>
      cases e with
      | BLE_GAP_EVT_CONNECTED h role =>
          by_cases hrole : role = BLE_GAP_ROLE_CENTRAL
          · subst hrole
            simp only [step, connect_central_eq_ok] at hs
            obtain ⟨c, _, hc, _, _, hcase⟩ := hs
            have hlt : h < s.m_ble_nus_c.length := (List.getElem?_eq_some_iff.mp hc).1
            rcases hcase with ⟨_, _, rfl⟩ | ⟨_, rfl⟩
            · exact Or.inr (Or.inl ⟨h, hlt, rfl⟩)
            · exact Or.inr (Or.inl ⟨h, hlt, rfl⟩)
          · simp only [step, connect_other_role N r h role s hrole] at hs
            cases hs
            exact Or.inl rfl
      | BLE_GAP_EVT_DISCONNECTED h reason =>
          simp only [step, disconnect_eq_ok] at hs
          obtain ⟨v, _, _, rfl⟩ := hs
          by_cases h1 : v = 1
          · rw [if_pos h1]; exact Or.inr (Or.inr ⟨h, rfl⟩)
          · rw [if_neg h1]; exact Or.inl rfl
      | other id =>
          simp only [step, app_nus_client_ble_evt_handler, pure_eq_ok] at hs
          subst hs
          exact Or.inl rfl
  | db_disc e =>
      obtain ⟨h, found⟩ := e
      cases found with
      | none =>
          simp only [step, db_disc_handler, pure_eq_ok] at hs
          subst hs
          exact Or.inl rfl
      | some H =>
          simp only [step, db_disc_found_eq_ok] at hs
          obtain ⟨_, _, _, _, rfl⟩ := hs
          exact Or.inl rfl
  | nus_tx i p_data data_len =>
      simp only [step, nus_tx_eq] at hs
      cases hs
      split <;> exact Or.inl rfl
  | nus_disconnected i =>
      simp only [step, ble_nus_c_evt_handler, scan_start_eq_ok_iff] at hs
      obtain ⟨_, rfl⟩ := hs
      exact Or.inl rfl
  | scan e =>
      rcases scan_evt_eq_ok r e s s1 hs with rfl | rfl <;> exact Or.inl rfl

theorem step_pool (N : Nat) (r : SdkResults) (ev : RelayEvent) (s s1 : RelayState)
    (hs : step N r ev s = .ok s1) :
    s1.m_ble_nus_c = s.m_ble_nus_c ∨
    (∃ h c, ev = .ble (.BLE_GAP_EVT_CONNECTED h BLE_GAP_ROLE_CENTRAL) ∧
      s.m_ble_nus_c[h]? = some c ∧
      s1.m_ble_nus_c = s.m_ble_nus_c.set h { c with conn_handle := h }) ∨
    (∃ h H, ev = .db_disc ⟨h, some H⟩ ∧ h < s.m_ble_nus_c.length ∧
      s1.m_ble_nus_c = s.m_ble_nus_c.set h ⟨h, H, true⟩) := by
  cases ev with
  | ble e =>
      cases e with
      | BLE_GAP_EVT_CONNECTED h role =>
          by_cases hrole : role = BLE_GAP_ROLE_CENTRAL
          · subst hrole
            simp only [step, connect_central_eq_ok] at hs
            obtain ⟨c, _, hc, _, _, hcase⟩ := hs
            rcases hcase with ⟨_, _, rfl⟩ | ⟨_, rfl⟩
            · exact Or.inr (Or.inl ⟨h, c, rfl, hc, rfl⟩)
            · exact Or.inr (Or.inl ⟨h, c, rfl, hc, rfl⟩)
          · simp only [step, connect_other_role N r h role s hrole] at hs
            cases hs
            exact Or.inl rfl
      | BLE_GAP_EVT_DISCONNECTED h reason =>
          simp only [step, disconnect_eq_ok] at hs
          obtain ⟨v, _, _, rfl⟩ := hs
          split <;> exact Or.inl rfl
      | other id =>
          simp only [step, app_nus_client_ble_evt_handler, pure_eq_ok] at hs
          subst hs
          exact Or.inl rfl
  | db_disc e =>
      obtain ⟨h, found⟩ := e
      cases found with
      | none =>
          simp only [step, db_disc_handler, pure_eq_ok] at hs
          subst hs
          exact Or.inl rfl
      | some H =>
          simp only [step, db_disc_found_eq_ok] at hs
          obtain ⟨c, hc, _, _, rfl⟩ := hs
          exact Or.inr (Or.inr ⟨h, H, rfl, (List.getElem?_eq_some_iff.mp hc).1, rfl⟩)
  | nus_tx i p_data data_len =>
      simp only [step, nus_tx_eq] at hs
      cases hs
      split <;> exact Or.inl rfl
  | nus_disconnected i =>
      simp only [step, ble_nus_c_evt_handler, scan_start_eq_ok_iff] at hs
      obtain ⟨_, rfl⟩ := hs
      exact Or.inl rfl
  | scan e =>
      rcases scan_evt_eq_ok r e s s1 hs with rfl | rfl <;> exact Or.inl rfl

theorem step_callback (N : Nat) (r : SdkResults) (ev : RelayEvent) (s s1 : RelayState)
    (hs : step N r ev s = .ok s1) :
    s1.m_on_data_received = s.m_on_data_received := by
  cases ev with
  | ble e =>
      cases e with
      | BLE_GAP_EVT_CONNECTED h role =>
          by_cases hrole : role = BLE_GAP_ROLE_CENTRAL
          · subst hrole
            simp only [step, connect_central_eq_ok] at hs
            obtain ⟨c, _, _, _, _, hcase⟩ := hs
            rcases hcase with ⟨_, _, rfl⟩ | ⟨_, rfl⟩ <;> rfl
          · simp only [step, connect_other_role N r h role s hrole] at hs
            cases hs
            rfl
      | BLE_GAP_EVT_DISCONNECTED h reason =>
          simp only [step, disconnect_eq_ok] at hs
          obtain ⟨v, _, _, rfl⟩ := hs
          split <;> rfl
      | other id =>
          simp only [step, app_nus_client_ble_evt_handler, pure_eq_ok] at hs
          subst hs
          rfl
  | db_disc e =>
      obtain ⟨h, found⟩ := e
      cases found with
      | none =>
          simp only [step, db_disc_handler, pure_eq_ok] at hs
          subst hs
          rfl
      | some H =>
          simp only [step, db_disc_found_eq_ok] at hs
          obtain ⟨_, _, _, _, rfl⟩ := hs
          rfl
  | nus_tx i p_data data_len =>
      simp only [step, nus_tx_eq] at hs
      cases hs
      split <;> rfl
  | nus_disconnected i =>
      simp only [step, ble_nus_c_evt_handler, scan_start_eq_ok_iff] at hs
      obtain ⟨_, rfl⟩ := hs
      rfl
  | scan e =>
      rcases scan_evt_eq_ok r e s s1 hs with rfl | rfl <;> rfl


/-! ## Admission -/

theorem count_le_of_marks_below (l : List Nat) :
    ∀ N, (∀ i, l[i]? = some 1 → i < N) → l.count 1 ≤ N := by
  induction l with
  | nil => intro N _; simp
  | cons x xs ih =>
      intro N hN
      by_cases hx : x = 1
      · subst hx
        have h0 : 0 < N := hN 0 (by simp)
        obtain ⟨M, rfl⟩ : ∃ M, N = M + 1 := ⟨N - 1, by omega⟩
        have := ih M (fun i hi => by
          have := hN (i + 1) (by simpa using hi)
          omega)
        simp only [List.count_cons_self]
        omega
      · have := ih N (fun i hi => by
          have := hN (i + 1) (by simpa using hi)
          omega)
        rw [List.count_cons_of_ne (fun e => hx e.symm)]
        exact this

theorem step_slots_within_pool (N : Nat) (r : SdkResults) (ev : RelayEvent)
    (s s1 : RelayState) (hs : step N r ev s = .ok s1) (hi : slots_within_pool N s) :
    slots_within_pool N s1 := by
  obtain ⟨hl, hp, hm⟩ := hi
  have hp1 : s1.m_ble_nus_c.length = N := by
    rcases step_pool N r ev s s1 hs with e | ⟨_, _, _, _, e⟩ | ⟨_, _, _, _, e⟩ <;>
      rw [e] <;> simp [hp]
  rcases step_table N r ev s s1 hs with e | ⟨h, hlt, e⟩ | ⟨h, e⟩
  · rw [slots_within_pool, e]
    exact ⟨hl, hp1, hm⟩
  · rw [slots_within_pool, e]
    refine ⟨by simp [hl], hp1, ?_⟩
    intro i hi
    by_cases hih : h = i
    · omega
    · rw [List.getElem?_set_ne hih] at hi
      exact hm i hi
  · rw [slots_within_pool, e]
    refine ⟨by simp [hl], hp1, ?_⟩
    intro i hi
    by_cases hih : h = i
    · subst hih
      simp only [List.getElem?_set, if_true] at hi
      split at hi <;> simp at hi
    · rw [List.getElem?_set_ne hih] at hi
      exact hm i hi

theorem run_slots_within_pool (N : Nat) :
    ∀ (evs : List (RelayEvent × SdkResults)) (s s1 : RelayState),
      run N evs s = .ok s1 → slots_within_pool N s → slots_within_pool N s1 := by
  intro evs
  induction evs with
  | nil =>
      intro s s1 hr hi
      simp only [run, pure_eq_ok] at hr
      subst hr
      exact hi
  | cons e rest ih =>
      intro s s1 hr hi
      obtain ⟨ev, r⟩ := e
      simp only [run, bind_eq_ok] at hr
      obtain ⟨s2, h2, h3⟩ := hr
      exact ih s2 s1 h3 (step_slots_within_pool N r ev s s2 h2 hi)

/-- C1 (as the code has it): start from an all-zero tracking table and feed any
finite sequence of events.  In every state reached without a fault the number
of tracked identifiers is at most `NRF_SDH_BLE_CENTRAL_LINK_COUNT`, because only
identifiers the pool also has are ever marked; and there is no admission gate:
in such a state, whatever the number already tracked, a central-role Connect
for an identifier below `NRF_SDH_BLE_CENTRAL_LINK_COUNT` whose SDK calls succeed
is handled to its end, leaves the identifier tracked and starts a discovery
pass for it. -/
theorem tracked_count_le_and_connect_tracked (N : Nat)
    (evs : List (RelayEvent × SdkResults)) (s0 s : RelayState)
    (h0 : s0.ntt_client_conn_handle = List.replicate (N + 2) 0)
    (hp : s0.m_ble_nus_c.length = N)
    (hrun : run N evs s0 = .ok s) :
    tracked_count s ≤ N ∧
    ∀ (r : SdkResults) (h : Nat), h < N → r.all_success →
      ∃ s1, app_nus_client_ble_evt_handler N r
          (.BLE_GAP_EVT_CONNECTED h BLE_GAP_ROLE_CENTRAL) s = .ok s1 ∧
        tracked s1 h ∧ s1.discovery_started = s.discovery_started ++ [h] := by
  have hi0 : slots_within_pool N s0 := by
    refine ⟨by rw [h0]; simp, hp, ?_⟩
    intro i hi
    rw [h0, List.getElem?_replicate] at hi
    split at hi <;> simp at hi
  obtain ⟨hl, hpl, hm⟩ := run_slots_within_pool N evs s0 s hrun hi0
  refine ⟨count_le_of_marks_below _ N hm, ?_⟩
  intro r h hh ⟨a1, a2, a3, _, a5⟩
  have hlt : h < s.ntt_client_conn_handle.length := by omega
  have hlp : h < s.m_ble_nus_c.length := by omega
  have hc : s.m_ble_nus_c[h]? = some s.m_ble_nus_c[h] := List.getElem?_eq_getElem hlp
  by_cases hn : r.ble_conn_state_central_conn_count < N
  · refine ⟨_, (connect_central_eq_ok N r h s _).2
      ⟨_, hlt, hc, a3, a5, Or.inl ⟨hn, ⟨a1, a2⟩, rfl⟩⟩, ?_, rfl⟩
    simp [tracked, connect_marked, List.getElem?_set, hlt]
  · refine ⟨_, (connect_central_eq_ok N r h s _).2
      ⟨_, hlt, hc, a3, a5, Or.inr ⟨hn, rfl⟩⟩, ?_, rfl⟩
    simp [tracked, connect_marked, List.getElem?_set, hlt]

theorem tracked_count_le_and_connect_tracked_witness :
    (init_state 10).ntt_client_conn_handle = List.replicate (10 + 2) 0 ∧
    (init_state 10).m_ble_nus_c.length = 10 ∧
    run 10 [(.ble (.BLE_GAP_EVT_CONNECTED 0 BLE_GAP_ROLE_CENTRAL), sdk_ok 1)] (init_state 10)
      = .ok { connect_marked (init_state 10) 0 ble_nus_c_zero with
              led_conn_to_periph_device := true, scanning := true,
              indicate_scanning := true } ∧
    (tracked_count { connect_marked (init_state 10) 0 ble_nus_c_zero with
              led_conn_to_periph_device := true, scanning := true,
              indicate_scanning := true } ≤ 10 ∧
      ∀ (r : SdkResults) (h : Nat), h < 10 → r.all_success →
        ∃ s1, app_nus_client_ble_evt_handler 10 r
            (.BLE_GAP_EVT_CONNECTED h BLE_GAP_ROLE_CENTRAL)
            { connect_marked (init_state 10) 0 ble_nus_c_zero with
              led_conn_to_periph_device := true, scanning := true,
              indicate_scanning := true } = .ok s1 ∧
          tracked s1 h ∧
          s1.discovery_started =
            ({ connect_marked (init_state 10) 0 ble_nus_c_zero with
              led_conn_to_periph_device := true, scanning := true,
              indicate_scanning := true } : RelayState).discovery_started ++ [h]) :=
  ⟨by decide, by decide, by decide,
    tracked_count_le_and_connect_tracked 10
      [(.ble (.BLE_GAP_EVT_CONNECTED 0 BLE_GAP_ROLE_CENTRAL), sdk_ok 1)] (init_state 10) _
      (by decide) (by decide) (by decide)⟩

/-- C1 fails as stated: with ten links tracked on a relay built for ten, a
further central-role Connect is not left untracked.  For identifier 3 it is
handled like any other Connect (slot marked, discovery pass started again);
for identifier 10 the handler first marks slot 10 of the table, which then
holds eleven marks, and then misses the pool. -/
theorem connect_at_capacity_is_not_ignored :
    full_table_scenario.toOption.map tracked_count = some 10 ∧
    (full_table_scenario >>= app_nus_client_ble_evt_handler 10 (sdk_ok 10)
        (.BLE_GAP_EVT_CONNECTED 3 BLE_GAP_ROLE_CENTRAL)).toOption.map
      (fun s => (decide (tracked s 3), s.discovery_started)) =
      some (true, [0, 1, 2, 3, 4, 5, 6, 7, 8, 9, 3]) ∧
    (full_table_scenario >>= app_nus_client_ble_evt_handler 10 (sdk_ok 10)
        (.BLE_GAP_EVT_CONNECTED 10 BLE_GAP_ROLE_CENTRAL)) = .error .out_of_bounds ∧
    (full_table_scenario >>= fun s => ntt_write s 10 1).toOption.map tracked_count =
      some 11 := by
  decide


/-! ## Initialisation -/

theorem ble_nus_c_init_eq_ok (s s1 : RelayState) (c : Nat) :
    ble_nus_c_init s c = .ok s1 ↔
      ∃ x, s.m_ble_nus_c[c]? = some x ∧
        s1 = { s with m_ble_nus_c := (s.m_ble_nus_c.set c
          ⟨BLE_CONN_HANDLE_INVALID,
           ⟨BLE_GATT_HANDLE_INVALID, x.handles.nus_tx_cccd_handle, BLE_GATT_HANDLE_INVALID⟩,
           x.tx_notif_enabled⟩) } := by
  unfold ble_nus_c_init
  simp only [bind_eq_ok, pool_read_eq_ok, pool_write_eq_ok]
  constructor
  · rintro ⟨x, hx, _, rfl⟩
    exact ⟨x, hx, rfl⟩
  · rintro ⟨x, hx, rfl⟩
    exact ⟨x, hx, (List.getElem?_eq_some_iff.mp hx).1, rfl⟩

theorem nus_c_init_loop_ok (ri : InitResults) :
    ∀ (todo c : Nat) (s s1 : RelayState), nus_c_init_loop ri todo c s = .ok s1 →
      s1.ntt_client_conn_handle = s.ntt_client_conn_handle ∧
      s1.m_on_data_received = s.m_on_data_received ∧
      s1.m_ble_nus_c.length = s.m_ble_nus_c.length ∧
      (∀ i, i < c → s1.m_ble_nus_c[i]? = s.m_ble_nus_c[i]?) ∧
      (∀ i x, c ≤ i → i < c + todo → s1.m_ble_nus_c[i]? = some x →
        x.conn_handle = BLE_CONN_HANDLE_INVALID) := by
  intro todo
  induction todo with
  | zero =>
      intro c s s1 h
      simp only [nus_c_init_loop, pure_eq_ok] at h
      subst h
      exact ⟨rfl, rfl, rfl, fun _ _ => rfl, fun i x h1 h2 => by omega⟩
  | succ m ih =>
      intro c s s1 h
      simp only [nus_c_init_loop, bind_eq_ok, ble_nus_c_init_eq_ok] at h
      obtain ⟨_, ⟨x, hx, rfl⟩, _, _, hrest⟩ := h
      have hlt : c < s.m_ble_nus_c.length := (List.getElem?_eq_some_iff.mp hx).1
      obtain ⟨e1, e2, e3, e4, e5⟩ := ih (c + 1) _ s1 hrest
      refine ⟨e1, e2, by simpa using e3, ?_, ?_⟩
      · intro i hi
        rw [e4 i (by omega)]
        exact List.getElem?_set_ne (by omega)
      · intro i y h1 h2 hy
        rcases Nat.eq_or_lt_of_le h1 with rfl | hlt1
        · rw [e4 c (by omega)] at hy
          simp only [List.getElem?_set, if_true, if_pos hlt, Option.some.injEq] at hy
          rw [← hy]
        · exact e5 i y hlt1 (by omega) hy

theorem init_eq_ok (N : Nat) (ri : InitResults) (r : SdkResults) (cb : Nat)
    (s s1 : RelayState) (h : app_nus_client_init N ri r cb s = .ok s1) :
    s1.ntt_client_conn_handle = s.ntt_client_conn_handle ∧
    s1.m_on_data_received = cb ∧
    s1.m_ble_nus_c.length = s.m_ble_nus_c.length ∧
    (∀ i x, i < N → s1.m_ble_nus_c[i]? = some x → x.conn_handle = BLE_CONN_HANDLE_INVALID) := by
  simp only [app_nus_client_init, bind_eq_ok, db_discovery_init, scan_init, nus_c_init,
    pure_eq_ok, scan_start_eq_ok_iff] at h
  obtain ⟨_, ⟨_, _, rfl⟩, s3, h3, _, ⟨_, _, _, _, _, _, rfl⟩, _, rfl⟩ := h
  obtain ⟨e1, e2, e3, _, e5⟩ := nus_c_init_loop_ok ri N 0 _ s3 h3
  exact ⟨e1, e2, e3, fun i x hi hx => e5 i x (Nat.zero_le _) (by omega) hx⟩

theorem run_callback (N : Nat) :
    ∀ (evs : List (RelayEvent × SdkResults)) (s s1 : RelayState),
      run N evs s = .ok s1 → s1.m_on_data_received = s.m_on_data_received := by
  intro evs
  induction evs with
  | nil =>
      intro s s1 hr
      simp only [run, pure_eq_ok] at hr
      subst hr
      rfl
  | cons e rest ih =>
      intro s s1 hr
      obtain ⟨ev, r⟩ := e
      simp only [run, bind_eq_ok] at hr
      obtain ⟨s2, h2, h3⟩ := hr
      rw [ih s2 s1 h3, step_callback N r ev s s2 h2]

/-! ## Inbound notifications -/

/-- C7: once a callback `cb` (not null) was registered through
`app_nus_client_init`, in every state reached by later events an inbound
notification carrying the bytes `b` makes `ble_nus_c_evt_handler` invoke that
callback exactly once, with `b` and its length, and change nothing else. -/
theorem notification_forwarded_once (N : Nat) (ri : InitResults) (r0 r : SdkResults)
    (cb : Nat) (evs : List (RelayEvent × SdkResults)) (s0 s1 s : RelayState) (i : Nat)
    (b : List Nat) (hcb : cb ≠ 0)
    (hinit : app_nus_client_init N ri r0 cb s0 = .ok s1)
    (hrun : run N evs s1 = .ok s) :
    ble_nus_c_evt_handler r i (.BLE_NUS_C_EVT_NUS_TX_EVT b b.length) s =
      .ok { s with delivered := s.delivered ++ [⟨cb, b, b.length⟩] } := by
  have hm : s.m_on_data_received = cb := by
    rw [run_callback N evs s1 s hrun]
    exact (init_eq_ok N ri r0 cb s0 s1 hinit).2.1
  rw [nus_tx_eq, hm, if_pos hcb]

theorem notification_forwarded_once_witness :
    (7 : Nat) ≠ 0 ∧
    app_nus_client_init 10 init_ok (sdk_ok 0) 7 (init_state 10) = .ok relay_after_init ∧
    run 10 [(.ble (.BLE_GAP_EVT_CONNECTED 1 BLE_GAP_ROLE_CENTRAL), sdk_ok 1),
            (.db_disc ⟨1, some ⟨11, 12, 13⟩⟩, sdk_ok 1)] relay_after_init
      = .ok relay_link_ready ∧
    ble_nus_c_evt_handler (sdk_ok 1) 1 (.BLE_NUS_C_EVT_NUS_TX_EVT [0x01, 0x02] 2)
        relay_link_ready =
      .ok { relay_link_ready with
            delivered := relay_link_ready.delivered ++ [⟨7, [0x01, 0x02], 2⟩] } :=
  ⟨by decide, by decide, by decide,
    notification_forwarded_once 10 init_ok (sdk_ok 0) (sdk_ok 1) 7
      [(.ble (.BLE_GAP_EVT_CONNECTED 1 BLE_GAP_ROLE_CENTRAL), sdk_ok 1),
       (.db_disc ⟨1, some ⟨11, 12, 13⟩⟩, sdk_ok 1)]
      (init_state 10) relay_after_init relay_link_ready 1 [0x01, 0x02]
      (by decide) (by decide) (by decide)⟩


/-! ## Pool binding -/

theorem step_bound_to_own_index (N : Nat) (r : SdkResults) (ev : RelayEvent)
    (s s1 : RelayState) (hs : step N r ev s = .ok s1) (hi : bound_to_own_index s) :
    bound_to_own_index s1 := by
  intro i c hc
  rcases step_pool N r ev s s1 hs with e | ⟨h, x, _, hx, e⟩ | ⟨h, H, _, hlt, e⟩
  · rw [e] at hc
    exact hi i c hc
  · rw [e] at hc
    have hlt : h < s.m_ble_nus_c.length := (List.getElem?_eq_some_iff.mp hx).1
    by_cases hih : h = i
    · subst hih
      simp only [List.getElem?_set, if_true, if_pos hlt, Option.some.injEq] at hc
      subst hc
      exact Or.inr rfl
    · rw [List.getElem?_set_ne hih] at hc
      exact hi i c hc
  · rw [e] at hc
    by_cases hih : h = i
    · subst hih
      simp only [List.getElem?_set, if_true, if_pos hlt, Option.some.injEq] at hc
      subst hc
      exact Or.inr rfl
    · rw [List.getElem?_set_ne hih] at hc
      exact hi i c hc

theorem run_bound_to_own_index (N : Nat) :
    ∀ (evs : List (RelayEvent × SdkResults)) (s s1 : RelayState),
      run N evs s = .ok s1 → bound_to_own_index s → bound_to_own_index s1 := by
  intro evs
  induction evs with
  | nil =>
      intro s s1 hr hi
      simp only [run, pure_eq_ok] at hr
      subst hr
      exact hi
  | cons e rest ih =>
      intro s s1 hr hi
      obtain ⟨ev, r⟩ := e
      simp only [run, bind_eq_ok] at hr
      obtain ⟨s2, h2, h3⟩ := hr
      exact ih s2 s1 h3 (step_bound_to_own_index N r ev s s2 h2 hi)

theorem step_keeps_instance (N : Nat) (r : SdkResults) (ev : RelayEvent)
    (s s1 : RelayState) (h : Nat) (x : ble_nus_c_t)
    (hs : step N r ev s = .ok s1) (hq : link_undisturbed h ev = true)
    (hx : s.m_ble_nus_c[h]? = some x) (hb : x.conn_handle = h) :
    s1.m_ble_nus_c[h]? = some x := by
  rcases step_pool N r ev s s1 hs with e | ⟨h1, c, _, hc, e⟩ | ⟨h1, H, hev, _, e⟩
  · rw [e]; exact hx
  · rw [e]
    by_cases hih : h1 = h
    · subst hih
      rw [hx] at hc
      simp only [Option.some.injEq] at hc
      subst hc
      have hlt : h1 < s.m_ble_nus_c.length := (List.getElem?_eq_some_iff.mp hx).1
      simp only [List.getElem?_set, if_true, if_pos hlt, Option.some.injEq]
      cases x
      simp only at hb
      subst hb
      rfl
    · rw [List.getElem?_set_ne hih]
      exact hx
  · rw [e]
    have hih : h1 ≠ h := by
      subst hev
      simpa [link_undisturbed] using hq
    rw [List.getElem?_set_ne hih]
    exact hx

theorem run_keeps_instance (N : Nat) (h : Nat) (x : ble_nus_c_t) (hb : x.conn_handle = h) :
    ∀ (evs : List (RelayEvent × SdkResults)) (s s1 : RelayState),
      (∀ e ∈ evs, link_undisturbed h e.1 = true) → run N evs s = .ok s1 →
      s.m_ble_nus_c[h]? = some x → s1.m_ble_nus_c[h]? = some x := by
  intro evs
  induction evs with
  | nil =>
      intro s s1 _ hr hx
      simp only [run, pure_eq_ok] at hr
      subst hr
      exact hx
  | cons e rest ih =>
      intro s s1 hq hr hx
      obtain ⟨ev, r⟩ := e
      simp only [run, bind_eq_ok] at hr
      obtain ⟨s2, h2, h3⟩ := hr
      exact ih s2 s1 (fun e he => hq e (List.mem_cons_of_mem _ he)) h3
        (step_keeps_instance N r ev s s2 h x h2 (hq (ev, r) (List.mem_cons_self _ _)) hx hb)

theorem init_invariants (N : Nat) (ri : InitResults) (r : SdkResults) (cb : Nat)
    (s1 : RelayState) (h : app_nus_client_init N ri r cb (init_state N) = .ok s1) :
    slots_within_pool N s1 ∧ bound_to_own_index s1 := by
  obtain ⟨e1, _, e3, e4⟩ := init_eq_ok N ri r cb (init_state N) s1 h
  have hlen : s1.m_ble_nus_c.length = N := by rw [e3]; simp [init_state]
  refine ⟨⟨by rw [e1]; simp [init_state], hlen, ?_⟩, ?_⟩
  · intro i hi
    rw [e1] at hi
    simp only [init_state, List.getElem?_replicate] at hi
    split at hi <;> simp at hi
  · intro i c hc
    have hlt : i < N := by
      rw [← hlen]
      exact (List.getElem?_eq_some_iff.mp hc).1
    exact Or.inl (e4 i c hlt hc)

/-- C9: in a state reached from `app_nus_client_init` in which link `h` is
tracked, a discovery-success event for `h` with handles `H` (SDK calls
succeeding) is handled to its end, and from then on, through every sequence of
events that contains neither the Disconnect for `h` nor a further
discovery-success report for `h`, the pool instance at index `h` is bound to
`h`, holds `H` and has notifications enabled, and no other instance is bound
to `h`. -/
theorem discovered_link_bound_to_own_instance (N : Nat) (ri : InitResults)
    (r0 r : SdkResults) (cb : Nat) (evs0 : List (RelayEvent × SdkResults))
    (s_init s0 : RelayState) (h : Nat) (H : ble_nus_c_handles_t)
    (hN : N ≤ BLE_CONN_HANDLE_INVALID)
    (hinit : app_nus_client_init N ri r0 cb (init_state N) = .ok s_init)
    (hrun0 : run N evs0 s_init = .ok s0)
    (ht : tracked s0 h) (hr : r.all_success) :
    ∃ s1, step N r (.db_disc ⟨h, some H⟩) s0 = .ok s1 ∧
      ∀ (evs : List (RelayEvent × SdkResults)) (s2 : RelayState),
        (∀ e ∈ evs, link_undisturbed h e.1 = true) → run N evs s1 = .ok s2 →
        s2.m_ble_nus_c[h]? = some ⟨h, H, true⟩ ∧
        ∀ (i : Nat) (c : ble_nus_c_t), i ≠ h → s2.m_ble_nus_c[i]? = some c →
          c.conn_handle ≠ h := by
  obtain ⟨hs_init, hb_init⟩ := init_invariants N ri r0 cb s_init hinit
  have hs0 := run_slots_within_pool N evs0 s_init s0 hrun0 hs_init
  have hb0 := run_bound_to_own_index N evs0 s_init s0 hrun0 hb_init
  obtain ⟨_, hp, hm⟩ := hs0
  have hh : h < N := hm h ht
  have hlp : h < s0.m_ble_nus_c.length := by omega
  obtain ⟨_, _, a3, a4, _⟩ := hr
  have hstep : step N r (.db_disc ⟨h, some H⟩) s0 =
      .ok { s0 with m_ble_nus_c := s0.m_ble_nus_c.set h ⟨h, H, true⟩ } := by
    simp only [step]
    exact (db_disc_found_eq_ok r h H s0 _).2
      ⟨s0.m_ble_nus_c[h], List.getElem?_eq_getElem hlp, a3, a4, rfl⟩
  refine ⟨_, hstep, ?_⟩
  intro evs s2 hq hrun
  have hb1 := step_bound_to_own_index N r _ s0 _ hstep hb0
  have hb2 := run_bound_to_own_index N evs _ s2 hrun hb1
  refine ⟨run_keeps_instance N h ⟨h, H, true⟩ rfl evs _ s2 hq hrun ?_, ?_⟩
  · simp [List.getElem?_set, hlp]
  · intro i c hne hc hch
    rcases hb2 i c hc with hinv | hown
    · rw [hch] at hinv
      omega
    · rw [hch] at hown
      exact hne hown.symm

theorem discovered_link_bound_to_own_instance_witness :
    10 ≤ BLE_CONN_HANDLE_INVALID ∧
    app_nus_client_init 10 init_ok (sdk_ok 0) 7 (init_state 10) = .ok relay_after_init ∧
    run 10 [(.ble (.BLE_GAP_EVT_CONNECTED 1 BLE_GAP_ROLE_CENTRAL), sdk_ok 1)] relay_after_init
      = .ok relay_link_connected ∧
    tracked relay_link_connected 1 ∧ (sdk_ok 1).all_success ∧
    ∃ s1, step 10 (sdk_ok 1) (.db_disc ⟨1, some ⟨11, 12, 13⟩⟩) relay_link_connected = .ok s1 ∧
      ∀ (evs : List (RelayEvent × SdkResults)) (s2 : RelayState),
        (∀ e ∈ evs, link_undisturbed 1 e.1 = true) → run 10 evs s1 = .ok s2 →
        s2.m_ble_nus_c[1]? = some ⟨1, ⟨11, 12, 13⟩, true⟩ ∧
        ∀ (i : Nat) (c : ble_nus_c_t), i ≠ 1 → s2.m_ble_nus_c[i]? = some c →
          c.conn_handle ≠ 1 :=
  ⟨by decide, by decide, by decide, by decide, by decide,
    discovered_link_bound_to_own_instance 10 init_ok (sdk_ok 0) (sdk_ok 1) 7
      [(.ble (.BLE_GAP_EVT_CONNECTED 1 BLE_GAP_ROLE_CENTRAL), sdk_ok 1)]
      relay_after_init relay_link_connected 1 ⟨11, 12, 13⟩
      (by decide) (by decide) (by decide) (by decide) (by decide)⟩

end AppNusClient
